import Mathlib

/-
Verification of the ad-speed-insights audits against their specification.

The embedding covers the three audit files:
  - GptBidsInParallel (gpt-bids-parallel audit),
  - FirstAdPaint (first-ad-paint audit),
  - CumulativeAdShift (cumulative-ad-shift audit),
plus a model of the shared log-normal score curve described by the spec.

JavaScript numbers are modelled as rationals; NaN is modelled as the `none`
case of `Option`; the Infinity sentinel timestamp is the top element of
`WithTop`. Repository utilities that live outside the audit files
(resource classifiers, critical-graph computation, simulated timings,
geometry helpers) are passed in as function parameters, exactly as the
audits receive them.
-/

namespace AdSpeedInsights

/-- A captured network request record, with the fields the gpt-bids-parallel
audit reads: url, frame id and captured start and end times. -/
structure NetworkRequest where
  url : String
  frameId : Nat
  startTime : ℚ
  endTime : ℚ
deriving DecidableEq

/-- A simulated timing entry, as stored in the timings-by-record map. -/
structure NodeTiming where
  startTime : ℚ
  endTime : ℚ
deriving DecidableEq

/-- One row of the failure table built by the gpt-bids-parallel audit. -/
structure TableRow where
  bidder : String
  url : String
  startTime : ℚ
  duration : ℚ
deriving DecidableEq

/-- The collaborators the gpt-bids-parallel audit calls into: resource
classifiers, the critical-graph computation (already applied to the fixed
network records and trace events, so only the target bid varies), and the
simulated timing map. -/
structure BidsContext where
  isImplTag : String → Bool
  isBidRequest : NetworkRequest → Bool
  getHeaderBidder : String → Option String
  getAbbreviatedUrl : String → String
  criticalGraph : NetworkRequest → List NetworkRequest
  timingsByRecord : NetworkRequest → Option NodeTiming

namespace GptBidsInParallel

/-- The table row the audit pushes for one bid: simulated timing when the
map has an entry for the bid, otherwise the captured times of the bid
itself; bids without a recognized header bidder get the empty-string
bidder. -/
def mkRow (ctx : BidsContext) (bid : NetworkRequest) : TableRow :=
  let t := (ctx.timingsByRecord bid).getD ⟨bid.startTime, bid.endTime⟩
  { bidder := (ctx.getHeaderBidder bid.url).getD ""
    url := ctx.getAbbreviatedUrl bid.url
    startTime := t.startTime
    duration := t.endTime - t.startTime }

/-- The audit loop over the bid requests: a bid contributes a row when the
implementation tag is in its critical graph and its bidder name has not
been seen yet. -/
def bidRows (ctx : BidsContext) (pubadsImpl : NetworkRequest) :
    List NetworkRequest → List String → List TableRow
  | [], _ => []
  | bid :: rest, seen =>
    if pubadsImpl ∈ ctx.criticalGraph bid then
      let bidder := (ctx.getHeaderBidder bid.url).getD ""
      if bidder ∈ seen then
        bidRows ctx pubadsImpl rest seen
      else
        mkRow ctx bid :: bidRows ctx pubadsImpl rest (bidder :: seen)
    else
      bidRows ctx pubadsImpl rest seen

/-- Result of the gpt-bids-parallel audit. -/
inductive AuditResult where
  | notApplicable (msg : String)
  | product (numericValue : ℚ) (score : ℚ) (details : Option (List TableRow))
deriving DecidableEq

/-- The gpt-bids-parallel audit: find the implementation tag, filter the bid
requests of the same frame, build the failure table, and fail when the
table is nonempty. -/
def audit (ctx : BidsContext) (network : List NetworkRequest) : AuditResult :=
  match network.find? (fun r => ctx.isImplTag r.url) with
  | none => .notApplicable "NO_TAG"
  | some pubadsImpl =>
    let bids := (network.filter ctx.isBidRequest).filter
      (fun b => b.frameId == pubadsImpl.frameId)
    if bids.isEmpty then .notApplicable "NO_BIDS"
    else
      let tableView := bidRows ctx pubadsImpl bids []
      if tableView.length > 0 then
        .product (tableView.length : ℚ) 0 (some tableView)
      else
        .product (tableView.length : ℚ) 1 none

end GptBidsInParallel

namespace FirstAdPaint

/-- Point of diminishing returns used by the first-ad-paint audit. -/
def PODR : ℚ := 3000

/-- Median control point used by the first-ad-paint audit. -/
def MEDIAN : ℚ := 4000

/-- Result of the first-ad-paint audit: either the not-applicable product or
a scored product with its numeric value. -/
inductive AuditResult where
  | notApplicable
  | product (numericValue : ℚ) (score : ℚ)
deriving DecidableEq

/-- The JavaScript guard `timing > 0`, on a timing that may be NaN (`none`).
Any comparison against NaN is false. -/
def timingPositive : Option ℚ → Bool
  | none => false
  | some t => decide (0 < t)

/-- The first-ad-paint audit: a timing that is not strictly positive (NaN,
zero or negative) pushes the NoAdRendered run warning and returns the
not-applicable result; otherwise the log-normal curve is evaluated at the
timing, scores of at least 0.9 are clamped up to 1 by the audit, and the
numeric value is the timing in seconds. The curve is a parameter, as the
audit calls into an external scoring module. The first component is the
updated run-warning list. -/
def audit (curve : ℚ → ℚ → ℚ → ℚ) (timing : Option ℚ)
    (warnings : List String) : List String × AuditResult :=
  if timingPositive timing then
    match timing with
    | none => (warnings ++ ["NoAdRendered"], .notApplicable)
    | some t =>
      let normalScore := curve t PODR MEDIAN
      let clamped := if 9/10 ≤ normalScore then 1 else normalScore
      (warnings, .product (t * (1/1000)) clamped)
  else
    (warnings ++ ["NoAdRendered"], .notApplicable)

end FirstAdPaint

/-- An impacted node of a layout-shift event; the old rectangle payload may
be absent, in which case the code substitutes the empty array. -/
structure ImpactedNode where
  old_rect : Option (List ℚ)
deriving DecidableEq

/-- The payload data of a layout-shift trace event. -/
structure ShiftData where
  impacted_nodes : Option (List ImpactedNode)
  is_main_frame : Bool
  had_recent_input : Bool
  score : ℚ
deriving DecidableEq

/-- The args field of a trace event; its data field may be absent. -/
structure TraceArgs where
  data : Option ShiftData
deriving DecidableEq

/-- A trace event, with the fields the cumulative-ad-shift audit reads. The
args field itself may be absent. -/
structure TraceEvent where
  name : String
  ts : ℚ
  args : Option TraceArgs
deriving DecidableEq

/-- An iframe element artifact; the geometry of its client rectangle is of
an abstract type read only by the external geometry helper. -/
structure IFrameElement (Rect : Type) where
  clientRect : Rect

namespace CumulativeAdShift

/-- Decides whether a layout-shift event is an ad shift: the event must
carry payload data, and the old rectangle of some impacted node must
overlap the client rectangle of some ad iframe. The geometry helpers
overlaps and toClientRect are external collaborators, passed as
parameters. -/
def isAdShift {Rect : Type} (overlaps : Rect → Rect → Bool)
    (toClientRect : List ℚ → Rect) (shiftEvent : TraceEvent)
    (ads : List (IFrameElement Rect)) : Bool :=
  match shiftEvent.args with
  | none => false
  | some args =>
    match args.data with
    | none => false
    | some data =>
      ads.any fun ad =>
        (data.impacted_nodes.getD []).any fun node =>
          overlaps (toClientRect (node.old_rect.getD [])) ad.clientRect

/-- The six counters accumulated by CumulativeAdShift.compute. -/
structure ShiftDetails where
  cumulativeShift : ℚ
  numShifts : Nat
  cumulativeAdShift : ℚ
  numAdShifts : Nat
  cumulativePreImplTagAdShift : ℚ
  numPreImplTagAdShifts : Nat
deriving DecidableEq

/-- One iteration of the compute loop: events without payload data, not on
the main frame, or with recent input are skipped; otherwise the total
counters advance, the ad counters advance when the event is an ad shift,
and the pre-tag counters advance when additionally the event timestamp is
before the tag-load timestamp (which may be the Infinity sentinel). -/
def computeStep {Rect : Type} (overlaps : Rect → Rect → Bool)
    (toClientRect : List ℚ → Rect) (ads : List (IFrameElement Rect))
    (tagLoadTs : WithTop ℚ) (acc : ShiftDetails) (event : TraceEvent) :
    ShiftDetails :=
  match event.args with
  | none => acc
  | some args =>
    match args.data with
    | none => acc
    | some data =>
      if !data.is_main_frame || data.had_recent_input then acc
      else
        let acc1 := { acc with
          cumulativeShift := acc.cumulativeShift + data.score
          numShifts := acc.numShifts + 1 }
        if isAdShift overlaps toClientRect event ads then
          let acc2 := { acc1 with
            cumulativeAdShift := acc1.cumulativeAdShift + data.score
            numAdShifts := acc1.numAdShifts + 1 }
          if (event.ts : WithTop ℚ) < tagLoadTs then
            { acc2 with
              cumulativePreImplTagAdShift :=
                acc2.cumulativePreImplTagAdShift + data.score
              numPreImplTagAdShifts := acc2.numPreImplTagAdShifts + 1 }
          else acc2
        else acc1

/-- CumulativeAdShift.compute: fold the step over the shift events starting
from zeroed counters. -/
def compute {Rect : Type} (overlaps : Rect → Rect → Bool)
    (toClientRect : List ℚ → Rect) (shiftEvents : List TraceEvent)
    (ads : List (IFrameElement Rect)) (tagLoadTs : WithTop ℚ) :
    ShiftDetails :=
  shiftEvents.foldl (computeStep overlaps toClientRect ads tagLoadTs)
    ⟨0, 0, 0, 0, 0, 0⟩

/-- Result of the cumulative-ad-shift audit. -/
inductive AuditResult where
  | notApplicable (msg : String)
  | product (numericValue : ℚ) (score : ℚ) (details : ShiftDetails)
deriving DecidableEq

/-- The cumulative-ad-shift audit: filter the LayoutShift events (none
present means not applicable), locate the tag-load event with Infinity as
the fallback timestamp, filter the ad iframes (none present means not
applicable), then compute the counters and score the cumulative ad shift
with the externally supplied curve. -/
def audit {Rect : Type} (overlaps : Rect → Rect → Bool)
    (toClientRect : List ℚ → Rect) (isAdIframe : IFrameElement Rect → Bool)
    (isImplTag : String → Bool) (getScriptUrl : TraceEvent → Option String)
    (curve : ℚ → ℚ) (traceEvents : List TraceEvent)
    (iframeElements : List (IFrameElement Rect)) : AuditResult :=
  let shiftEvents := traceEvents.filter (fun e => e.name == "LayoutShift")
  if shiftEvents.isEmpty then .notApplicable "NoLayoutShifts"
  else
    let tagLoadTs : WithTop ℚ :=
      match traceEvents.find? (fun e => isImplTag ((getScriptUrl e).getD "")) with
      | some e => (e.ts : WithTop ℚ)
      | none => ⊤
    let ads := iframeElements.filter isAdIframe
    if ads.isEmpty then .notApplicable "NoAdRendered"
    else
      let details := compute overlaps toClientRect shiftEvents ads tagLoadTs
      .product details.cumulativeAdShift (curve details.cumulativeAdShift)
        details

end CumulativeAdShift

namespace ScoreCurve

open MeasureTheory ProbabilityTheory

/-- Modelled from the spec: the standard normal cumulative distribution
function, used to express the log-normal distribution underlying the score
curve. The score-curve implementation the audits invoke lives in the
external scoring module, not in the audit sources, so it is modelled here
from the specification of the score curve evaluator. -/
noncomputable def normalCDF (x : ℝ) : ℝ :=
  ∫ t in Set.Iic x, gaussianPDFReal 0 1 t

lemma gaussianPDFReal_even (x : ℝ) :
    gaussianPDFReal 0 1 (-x) = gaussianPDFReal 0 1 x := by
  simp [gaussianPDFReal, neg_sq]

lemma normalCDF_mono : Monotone normalCDF := by
  intro x y hxy
  refine setIntegral_mono_set
    ((integrable_gaussianPDFReal 0 1).integrableOn) ?_ ?_
  · exact Filter.Eventually.of_forall fun t => gaussianPDFReal_nonneg 0 1 t
  · exact HasSubset.Subset.eventuallyLE (Set.Iic_subset_Iic.mpr hxy)

lemma normalCDF_nonneg (x : ℝ) : 0 ≤ normalCDF x :=
  setIntegral_nonneg measurableSet_Iic fun t _ => gaussianPDFReal_nonneg 0 1 t

lemma normalCDF_add_Ioi (x : ℝ) :
    normalCDF x + ∫ t in Set.Ioi x, gaussianPDFReal 0 1 t = 1 := by
  rw [normalCDF, intervalIntegral.integral_Iic_add_Ioi
      ((integrable_gaussianPDFReal 0 1).integrableOn)
      ((integrable_gaussianPDFReal 0 1).integrableOn),
    integral_gaussianPDFReal_eq_one 0 one_ne_zero]

lemma normalCDF_neg (x : ℝ) : normalCDF (-x) = 1 - normalCDF x := by
  have h1 : normalCDF (-x) = ∫ t in Set.Ioi x, gaussianPDFReal 0 1 t := by
    rw [normalCDF]
    rw [show (∫ t in Set.Iic (-x), gaussianPDFReal 0 1 t)
        = ∫ t in Set.Iic (-x), gaussianPDFReal 0 1 (-t) from by
      simp_rw [gaussianPDFReal_even]]
    rw [integral_comp_neg_Iic, neg_neg]
  have h2 := normalCDF_add_Ioi x
  linarith

lemma normalCDF_zero : normalCDF 0 = 1/2 := by
  have h := normalCDF_neg 0
  rw [neg_zero] at h
  linarith

lemma normalCDF_continuous : Continuous normalCDF := by
  have h : Continuous fun b => ∫ x in (0:ℝ)..b, gaussianPDFReal 0 1 x :=
    (integrable_gaussianPDFReal 0 1).continuous_primitive 0
  have heq : normalCDF
      = fun b => normalCDF 0 + ∫ x in (0:ℝ)..b, gaussianPDFReal 0 1 x := by
    funext b
    have h2 : (∫ x in Set.Iic b, gaussianPDFReal 0 1 x)
        - ∫ x in Set.Iic (0:ℝ), gaussianPDFReal 0 1 x
        = ∫ x in (0:ℝ)..b, gaussianPDFReal 0 1 x :=
      intervalIntegral.integral_Iic_sub_Iic
        ((integrable_gaussianPDFReal 0 1).integrableOn)
        ((integrable_gaussianPDFReal 0 1).integrableOn)
    simp only [normalCDF]
    linarith
  rw [heq]
  exact continuous_const.add h

lemma exists_normalCDF_eq_nine_tenths : ∃ z : ℝ, normalCDF z = 9/10 := by
  obtain ⟨M, hM⟩ : ∃ M : ℝ, 9/10 ≤ normalCDF M := by
    have h1 : Filter.Tendsto
        (fun i : ℝ => ∫ x in (-i)..i, gaussianPDFReal 0 1 x)
        Filter.atTop (nhds (∫ x, gaussianPDFReal 0 1 x)) :=
      intervalIntegral_tendsto_integral (integrable_gaussianPDFReal 0 1)
        Filter.tendsto_neg_atTop_atBot Filter.tendsto_id
    rw [integral_gaussianPDFReal_eq_one 0 one_ne_zero] at h1
    have h2 : ∀ᶠ i : ℝ in Filter.atTop,
        9/10 < ∫ x in (-i)..i, gaussianPDFReal 0 1 x :=
      h1.eventually (lt_mem_nhds (by norm_num))
    obtain ⟨M, hM⟩ := h2.exists
    refine ⟨M, ?_⟩
    have h3 : (∫ x in Set.Iic M, gaussianPDFReal 0 1 x)
        - ∫ x in Set.Iic (-M), gaussianPDFReal 0 1 x
        = ∫ x in (-M)..M, gaussianPDFReal 0 1 x :=
      intervalIntegral.integral_Iic_sub_Iic
        ((integrable_gaussianPDFReal 0 1).integrableOn)
        ((integrable_gaussianPDFReal 0 1).integrableOn)
    have h4 : 0 ≤ normalCDF (-M) := normalCDF_nonneg (-M)
    have h5 : normalCDF M
        = normalCDF (-M) + ∫ x in (-M)..M, gaussianPDFReal 0 1 x := by
      simp only [normalCDF]
      linarith
    linarith
  have hM0 : (0:ℝ) ≤ M := by
    by_contra hc
    push_neg at hc
    have hle := normalCDF_mono hc.le
    rw [normalCDF_zero] at hle
    linarith
  have hmem : (9/10 : ℝ) ∈ Set.Icc (normalCDF 0) (normalCDF M) := by
    rw [normalCDF_zero]
    exact ⟨by norm_num, hM⟩
  obtain ⟨z, _, hz⟩ :=
    intermediate_value_Icc hM0 normalCDF_continuous.continuousOn hmem
  exact ⟨z, hz⟩

/-- Modelled from the spec: the standard normal deviate at which the CDF
equals nine tenths, the shaping constant that sends the p10 control point
to a score of 0.9. -/
noncomputable def z90 : ℝ := exists_normalCDF_eq_nine_tenths.choose

lemma normalCDF_z90 : normalCDF z90 = 9/10 :=
  exists_normalCDF_eq_nine_tenths.choose_spec

lemma z90_pos : 0 < z90 := by
  by_contra hc
  push_neg at hc
  have h := normalCDF_mono hc
  rw [normalCDF_z90, normalCDF_zero] at h
  norm_num at h

/-- Modelled from the spec: the log-normal score curve evaluator invoked by
the audits. The score is the complement of the log-normal cumulative
distribution at the value, with the distribution shaped so that the p10
control point yields 0.9 and the median control point yields 0.5. -/
noncomputable def logNormalScore (p10 median value : ℝ) : ℝ :=
  1 - normalCDF ((Real.log value - Real.log median)
      / ((Real.log median - Real.log p10) / z90))

lemma logNormalScore_median (p10 median : ℝ) :
    logNormalScore p10 median median = 1/2 := by
  simp [logNormalScore, normalCDF_zero]
  norm_num

lemma logNormalScore_p10 (p10 median : ℝ) (hp : 0 < p10)
    (hpm : p10 < median) : logNormalScore p10 median p10 = 9/10 := by
  have hlog : Real.log p10 < Real.log median := Real.log_lt_log hp hpm
  have h1 : Real.log median - Real.log p10 ≠ 0 := by
    intro h0
    rw [sub_eq_zero] at h0
    exact absurd h0.symm (ne_of_lt hlog)
  have h2 : z90 ≠ 0 := ne_of_gt z90_pos
  have harg : (Real.log p10 - Real.log median)
      / ((Real.log median - Real.log p10) / z90) = -z90 := by
    field_simp
    ring
  rw [logNormalScore, harg, normalCDF_neg, normalCDF_z90]
  norm_num

lemma logNormalScore_antitone (p10 median : ℝ) (hp : 0 < p10)
    (hpm : p10 < median) {v1 v2 : ℝ} (hv1 : 0 < v1) (h12 : v1 ≤ v2) :
    logNormalScore p10 median v2 ≤ logNormalScore p10 median v1 := by
  have hlog : Real.log p10 < Real.log median := Real.log_lt_log hp hpm
  have hsigma : 0 < (Real.log median - Real.log p10) / z90 :=
    div_pos (by linarith) z90_pos
  have hv2 : 0 < v2 := lt_of_lt_of_le hv1 h12
  have hloglt : Real.log v1 ≤ Real.log v2 :=
    (Real.log_le_log_iff hv1 hv2).mpr h12
  have harg : (Real.log v1 - Real.log median)
        / ((Real.log median - Real.log p10) / z90)
      ≤ (Real.log v2 - Real.log median)
        / ((Real.log median - Real.log p10) / z90) :=
    (div_le_div_iff_of_pos_right hsigma).mpr (by linarith)
  have h := normalCDF_mono harg
  simp only [logNormalScore]
  linarith

end ScoreCurve

namespace GptBidsInParallel

lemma bidRows_mem (ctx : BidsContext) (pubadsImpl : NetworkRequest) :
    ∀ (bids : List NetworkRequest) (seen : List String) (row : TableRow),
      row ∈ bidRows ctx pubadsImpl bids seen →
      ∃ bid, bid ∈ bids ∧ pubadsImpl ∈ ctx.criticalGraph bid ∧
        row = mkRow ctx bid := by
  intro bids
  induction bids with
  | nil =>
    intro seen row h
    simp [bidRows] at h
  | cons bid rest ih =>
    intro seen row h
    simp only [bidRows] at h
    split_ifs at h with hc hs
    · obtain ⟨b, hb, hcrit, hrow⟩ := ih seen row h
      exact ⟨b, List.mem_cons_of_mem _ hb, hcrit, hrow⟩
    · rcases List.mem_cons.mp h with h1 | h1
      · exact ⟨bid, List.mem_cons_self _ _, hc, h1⟩
      · obtain ⟨b, hb, hcrit, hrow⟩ := ih _ row h1
        exact ⟨b, List.mem_cons_of_mem _ hb, hcrit, hrow⟩
    · obtain ⟨b, hb, hcrit, hrow⟩ := ih seen row h
      exact ⟨b, List.mem_cons_of_mem _ hb, hcrit, hrow⟩

lemma bidRows_bidder_nodup (ctx : BidsContext) (pubadsImpl : NetworkRequest) :
    ∀ (bids : List NetworkRequest) (seen : List String),
      ((bidRows ctx pubadsImpl bids seen).map TableRow.bidder).Nodup ∧
      ∀ b ∈ (bidRows ctx pubadsImpl bids seen).map TableRow.bidder,
        b ∉ seen := by
  intro bids
  induction bids with
  | nil =>
    intro seen
    simp [bidRows]
  | cons bid rest ih =>
    intro seen
    simp only [bidRows]
    split_ifs with hc hs
    · exact ih seen
    · constructor
      · simp only [List.map_cons, List.nodup_cons]
        refine ⟨?_, (ih _).1⟩
        intro hmem
        have h2 := (ih ((ctx.getHeaderBidder bid.url).getD "" :: seen)).2
          (mkRow ctx bid).bidder hmem
        exact h2 (by simp [mkRow])
      · intro b hb
        rcases List.mem_cons.mp hb with h1 | h1
        · intro hbseen
          apply hs
          rw [show (ctx.getHeaderBidder bid.url).getD "" = b from by
            simp [h1, mkRow]]
          exact hbseen
        · have h2 := (ih ((ctx.getHeaderBidder bid.url).getD "" :: seen)).2
            b h1
          intro hbseen
          exact h2 (List.mem_cons_of_mem _ hbseen)
    · exact ih seen

lemma audit_product_table (ctx : BidsContext) (network : List NetworkRequest)
    (n s : ℚ) (rows : List TableRow)
    (h : audit ctx network = .product n s (some rows)) :
    ∃ pubadsImpl,
      network.find? (fun r => ctx.isImplTag r.url) = some pubadsImpl ∧
      rows = bidRows ctx pubadsImpl
        (network.filter
          (fun b => b.frameId == pubadsImpl.frameId && ctx.isBidRequest b))
        [] := by
  unfold audit at h
  cases hf : network.find? (fun r => ctx.isImplTag r.url) with
  | none =>
    rw [hf] at h
    simp at h
  | some impl =>
    rw [hf] at h
    dsimp only at h
    refine ⟨impl, rfl, ?_⟩
    split_ifs at h with h1 h2 <;> simp at h
    exact h.2.2.symm

/-- C1: the gpt-bids-parallel audit includes a bid request in its failure
table only if the ad-tag implementation request is a member of the
critical graph computed for that bid; every table row arises from a bid
request whose critical graph contains the implementation request. -/
theorem gptBids_failure_table_requires_critical_membership
    (ctx : BidsContext) (network : List NetworkRequest)
    (pubadsImpl : NetworkRequest) (n s : ℚ) (rows : List TableRow)
    (himpl : network.find? (fun r => ctx.isImplTag r.url) = some pubadsImpl)
    (h : audit ctx network = .product n s (some rows)) :
    ∀ row ∈ rows, ∃ bid, bid ∈ network ∧ ctx.isBidRequest bid = true ∧
      bid.frameId = pubadsImpl.frameId ∧
      pubadsImpl ∈ ctx.criticalGraph bid ∧ row = mkRow ctx bid := by
  intro row hrow
  obtain ⟨impl2, hf2, hrows⟩ := audit_product_table ctx network n s rows h
  rw [himpl] at hf2
  cases hf2
  rw [hrows] at hrow
  obtain ⟨bid, hbid, hcrit, hmk⟩ := bidRows_mem ctx pubadsImpl _ _ row hrow
  rw [List.mem_filter] at hbid
  obtain ⟨hmem, hcond⟩ := hbid
  simp only [Bool.and_eq_true, beq_iff_eq] at hcond
  exact ⟨bid, hmem, hcond.2, hcond.1, hcrit, hmk⟩

/-- C1 witness: a concrete network with one implementation tag and one bid
request on its critical path. -/
def wImpl : NetworkRequest := ⟨"impl.js", 1, 0, 500⟩

/-- C1 witness bid request. -/
def wBid : NetworkRequest := ⟨"bid.js", 1, 500, 900⟩

/-- C1 witness collaborator functions. -/
def wCtx : BidsContext :=
  { isImplTag := fun u => u == "impl.js"
    isBidRequest := fun r => r.url == "bid.js"
    getHeaderBidder := fun _ => none
    getAbbreviatedUrl := fun u => u
    criticalGraph := fun _ => [⟨"impl.js", 1, 0, 500⟩]
    timingsByRecord := fun _ => none }

/-- C1 witness network records. -/
def wNetwork : List NetworkRequest := [wImpl, wBid]

/-- C1 witness table row, the row the audit builds for the witness bid. -/
def wRow : TableRow := mkRow wCtx wBid

theorem gptBids_failure_table_requires_critical_membership_witness :
    ∃ bid, bid ∈ wNetwork ∧ wCtx.isBidRequest bid = true ∧
      bid.frameId = wImpl.frameId ∧
      wImpl ∈ wCtx.criticalGraph bid ∧ wRow = mkRow wCtx bid :=
  gptBids_failure_table_requires_critical_membership wCtx wNetwork wImpl
    1 0 [wRow] rfl rfl wRow (List.mem_cons_self wRow [])

/-- C5: every row of the gpt-bids-parallel failure table takes its start
time and duration from the simulated per-record timing when the timing map
has an entry for the bid, and otherwise from the captured start and end
times of the bid; in both cases the duration is the end time minus the
start time. -/
theorem gptBids_row_timing_source
    (ctx : BidsContext) (network : List NetworkRequest) (n s : ℚ)
    (rows : List TableRow)
    (h : audit ctx network = .product n s (some rows)) :
    ∀ row ∈ rows, ∃ bid, bid ∈ network ∧
      ((∃ t, ctx.timingsByRecord bid = some t ∧
          row.startTime = t.startTime ∧
          row.duration = t.endTime - t.startTime) ∨
        (ctx.timingsByRecord bid = none ∧
          row.startTime = bid.startTime ∧
          row.duration = bid.endTime - bid.startTime)) := by
  intro row hrow
  obtain ⟨impl, hf, hrows⟩ := audit_product_table ctx network n s rows h
  rw [hrows] at hrow
  obtain ⟨bid, hbid, _, hmk⟩ := bidRows_mem ctx impl _ _ row hrow
  rw [List.mem_filter] at hbid
  refine ⟨bid, hbid.1, ?_⟩
  cases ht : ctx.timingsByRecord bid with
  | none =>
    right
    rw [hmk]
    simp [mkRow, ht]
  | some t =>
    left
    refine ⟨t, rfl, ?_, ?_⟩ <;> rw [hmk] <;> simp [mkRow, ht]

theorem gptBids_row_timing_source_witness :
    ∃ bid, bid ∈ wNetwork ∧
      ((∃ t, wCtx.timingsByRecord bid = some t ∧
          wRow.startTime = t.startTime ∧
          wRow.duration = t.endTime - t.startTime) ∨
        (wCtx.timingsByRecord bid = none ∧
          wRow.startTime = bid.startTime ∧
          wRow.duration = bid.endTime - bid.startTime)) :=
  gptBids_row_timing_source wCtx wNetwork 1 0 [wRow] rfl wRow
    (List.mem_cons_self wRow [])

/-- C10: the gpt-bids-parallel failure table holds at most one row per
bidder name, and since every bid without a recognized header bidder is
attributed to the empty-string bidder, at most one unattributed row ever
appears. -/
theorem gptBids_at_most_one_row_per_bidder
    (ctx : BidsContext) (network : List NetworkRequest) (n s : ℚ)
    (rows : List TableRow)
    (h : audit ctx network = .product n s (some rows)) :
    (rows.map TableRow.bidder).Nodup ∧
      (rows.map TableRow.bidder).count "" ≤ 1 := by
  obtain ⟨impl, _, hrows⟩ := audit_product_table ctx network n s rows h
  rw [hrows]
  have hnd := (bidRows_bidder_nodup ctx impl
    (network.filter
      (fun b => b.frameId == impl.frameId && ctx.isBidRequest b)) []).1
  exact ⟨hnd, List.nodup_iff_count_le_one.mp hnd ""⟩

theorem gptBids_at_most_one_row_per_bidder_witness :
    (([wRow].map TableRow.bidder)).Nodup ∧
      (([wRow].map TableRow.bidder)).count "" ≤ 1 :=
  gptBids_at_most_one_row_per_bidder wCtx wNetwork 1 0 [wRow] rfl

end GptBidsInParallel

namespace FirstAdPaint

/-- C2: in the spec model of the log-normal score curve, for every valid
parameter pair with p10 below the median, the curve returns 0.9 at the p10
control point, 0.5 at the median control point, and is monotonically
non-increasing over positive measured values. -/
theorem logNormal_score_curve_control_points (p m : ℝ) (hp : 0 < p)
    (hpm : p < m) :
    ScoreCurve.logNormalScore p m p = 9/10 ∧
    ScoreCurve.logNormalScore p m m = 1/2 ∧
    ∀ v1 v2 : ℝ, 0 < v1 → v1 ≤ v2 →
      ScoreCurve.logNormalScore p m v2 ≤ ScoreCurve.logNormalScore p m v1 :=
  ⟨ScoreCurve.logNormalScore_p10 p m hp hpm,
    ScoreCurve.logNormalScore_median p m,
    fun _ _ h1 h2 => ScoreCurve.logNormalScore_antitone p m hp hpm h1 h2⟩

theorem logNormal_score_curve_control_points_witness :
    ScoreCurve.logNormalScore 1 2 1 = 9/10 :=
  (logNormal_score_curve_control_points 1 2 one_pos one_lt_two).1

/-- C3: for a timing that passes the applicability guard, the first-ad-paint
audit returns exactly 1 whenever the curve's computed score is at least
0.9 and the computed score unchanged otherwise; the clamp is applied by
the audit for an arbitrary curve, while the spec-modelled curve evaluator
itself returns the unclamped 0.9 at the p10 control point. -/
theorem firstAdPaint_caller_clamp (curve : ℚ → ℚ → ℚ → ℚ) (t : ℚ)
    (ws : List String) (ht : 0 < t) :
    audit curve (some t) ws
      = (ws, .product (t * (1/1000))
          (if 9/10 ≤ curve t PODR MEDIAN then 1 else curve t PODR MEDIAN)) ∧
    ∀ p m : ℝ, 0 < p → p < m →
      9/10 ≤ ScoreCurve.logNormalScore p m p ∧
      ScoreCurve.logNormalScore p m p ≠ 1 := by
  constructor
  · simp [audit, timingPositive, ht]
  · intro p m hp hpm
    rw [ScoreCurve.logNormalScore_p10 p m hp hpm]
    norm_num

/-- C3 and C4 witness curve, a constant curve standing in for the external
evaluator. -/
def wCurve : ℚ → ℚ → ℚ → ℚ := fun _ _ _ => 1/2

theorem firstAdPaint_caller_clamp_witness :
    audit wCurve (some 1000) []
      = ([], .product (1000 * (1/1000))
          (if 9/10 ≤ wCurve 1000 PODR MEDIAN then 1
            else wCurve 1000 PODR MEDIAN)) :=
  (firstAdPaint_caller_clamp wCurve 1000 [] (by decide)).1

/-- C4: a timing that is NaN, zero or negative makes the first-ad-paint
audit push the NoAdRendered run warning and return the not-applicable
result; the outcome does not depend on the curve, so the curve is never
invoked; and for any input at all, the audit either returns not-applicable
or its timing was a strictly positive value, so the curve is only ever
evaluated at a strictly positive timing. -/
theorem firstAdPaint_guard_rejects_nonpositive
    (curve curve2 : ℚ → ℚ → ℚ → ℚ) (timing timing2 : Option ℚ)
    (warnings ws2 : List String)
    (h : timing = none ∨ ∃ t, timing = some t ∧ t ≤ 0) :
    audit curve timing warnings
        = (warnings ++ ["NoAdRendered"], .notApplicable) ∧
    audit curve timing warnings = audit curve2 timing warnings ∧
    ((audit curve timing2 ws2).2 = .notApplicable ∨
      ∃ t, timing2 = some t ∧ 0 < t) := by
  have hfalse : timingPositive timing = false := by
    rcases h with h | ⟨t, ht, hle⟩
    · rw [h]; rfl
    · rw [ht]
      simp [timingPositive, not_lt.mpr hle]
  refine ⟨?_, ?_, ?_⟩
  · cases timing with
    | none => simp [audit, timingPositive]
    | some t => simp [audit, hfalse]
  · cases timing with
    | none => simp [audit, timingPositive]
    | some t => simp [audit, hfalse]
  · cases timing2 with
    | none =>
      left
      simp [audit, timingPositive]
    | some t =>
      by_cases hpos : 0 < t
      · exact Or.inr ⟨t, rfl, hpos⟩
      · left
        simp [audit, timingPositive, hpos]

theorem firstAdPaint_guard_rejects_nonpositive_witness :
    audit wCurve none [] = ([] ++ ["NoAdRendered"], .notApplicable) :=
  (firstAdPaint_guard_rejects_nonpositive wCurve wCurve none (some 7) [] []
    (Or.inl rfl)).1

end FirstAdPaint

namespace CumulativeAdShift

/-- An event qualifies for counting when it carries payload data flagged as
main-frame and without recent input. -/
def qualifyingShift (e : TraceEvent) : Bool :=
  match e.args with
  | none => false
  | some args =>
    match args.data with
    | none => false
    | some data => data.is_main_frame && !data.had_recent_input

lemma computeStep_skip {Rect : Type} (overlaps : Rect → Rect → Bool)
    (toClientRect : List ℚ → Rect) (ads : List (IFrameElement Rect))
    (tagLoadTs : WithTop ℚ) (acc : ShiftDetails) (e : TraceEvent)
    (h : qualifyingShift e = false) :
    computeStep overlaps toClientRect ads tagLoadTs acc e = acc := by
  obtain ⟨nm, ts, args⟩ := e
  cases args with
  | none => rfl
  | some a =>
    obtain ⟨d⟩ := a
    cases d with
    | none => rfl
    | some data =>
      cases hmf : data.is_main_frame <;> cases hri : data.had_recent_input <;>
        simp_all [computeStep, qualifyingShift]

lemma foldl_computeStep_filter {Rect : Type} (overlaps : Rect → Rect → Bool)
    (toClientRect : List ℚ → Rect) (ads : List (IFrameElement Rect))
    (tagLoadTs : WithTop ℚ) :
    ∀ (events : List TraceEvent) (acc : ShiftDetails),
      events.foldl (computeStep overlaps toClientRect ads tagLoadTs) acc
        = (events.filter qualifyingShift).foldl
            (computeStep overlaps toClientRect ads tagLoadTs) acc := by
  intro events
  induction events with
  | nil => intro acc; rfl
  | cons e rest ih =>
    intro acc
    cases hq : qualifyingShift e with
    | true => simp [List.filter_cons, hq, List.foldl_cons, ih]
    | false =>
      simp [List.filter_cons, hq, List.foldl_cons, ih,
        computeStep_skip overlaps toClientRect ads tagLoadTs acc e hq]

lemma computeStep_counts {Rect : Type} (overlaps : Rect → Rect → Bool)
    (toClientRect : List ℚ → Rect) (ads : List (IFrameElement Rect))
    (tagLoadTs : WithTop ℚ) (acc : ShiftDetails) (e : TraceEvent)
    (h1 : acc.numPreImplTagAdShifts ≤ acc.numAdShifts)
    (h2 : acc.numAdShifts ≤ acc.numShifts) :
    (computeStep overlaps toClientRect ads tagLoadTs acc e).numPreImplTagAdShifts
        ≤ (computeStep overlaps toClientRect ads tagLoadTs acc e).numAdShifts ∧
      (computeStep overlaps toClientRect ads tagLoadTs acc e).numAdShifts
        ≤ (computeStep overlaps toClientRect ads tagLoadTs acc e).numShifts := by
  obtain ⟨nm, ts, args⟩ := e
  cases args with
  | none => exact ⟨h1, h2⟩
  | some a =>
    obtain ⟨d⟩ := a
    cases d with
    | none => exact ⟨h1, h2⟩
    | some data =>
      simp only [computeStep]
      split_ifs <;> (try simp) <;> omega

lemma computeStep_cums {Rect : Type} (overlaps : Rect → Rect → Bool)
    (toClientRect : List ℚ → Rect) (ads : List (IFrameElement Rect))
    (tagLoadTs : WithTop ℚ) (acc : ShiftDetails) (e : TraceEvent)
    (hscore : ∀ args data, e.args = some args → args.data = some data →
      data.is_main_frame = true → data.had_recent_input = false →
      0 ≤ data.score)
    (h1 : acc.cumulativePreImplTagAdShift ≤ acc.cumulativeAdShift)
    (h2 : acc.cumulativeAdShift ≤ acc.cumulativeShift) :
    (computeStep overlaps toClientRect ads tagLoadTs acc
          e).cumulativePreImplTagAdShift
        ≤ (computeStep overlaps toClientRect ads tagLoadTs acc
          e).cumulativeAdShift ∧
      (computeStep overlaps toClientRect ads tagLoadTs acc
          e).cumulativeAdShift
        ≤ (computeStep overlaps toClientRect ads tagLoadTs acc
          e).cumulativeShift := by
  obtain ⟨nm, ts, args⟩ := e
  cases args with
  | none => exact ⟨h1, h2⟩
  | some a =>
    obtain ⟨d⟩ := a
    cases d with
    | none => exact ⟨h1, h2⟩
    | some data =>
      cases hmf : data.is_main_frame with
      | false => simp_all [computeStep]
      | true =>
        cases hri : data.had_recent_input with
        | true => simp_all [computeStep]
        | false =>
          have hs : 0 ≤ data.score := hscore ⟨some data⟩ data rfl rfl hmf hri
          simp only [computeStep, hmf, hri]
          split_ifs <;> (try simp) <;> constructor <;> linarith

lemma foldl_computeStep_counts {Rect : Type} (overlaps : Rect → Rect → Bool)
    (toClientRect : List ℚ → Rect) (ads : List (IFrameElement Rect))
    (tagLoadTs : WithTop ℚ) :
    ∀ (events : List TraceEvent) (acc : ShiftDetails),
      acc.numPreImplTagAdShifts ≤ acc.numAdShifts →
      acc.numAdShifts ≤ acc.numShifts →
      (events.foldl (computeStep overlaps toClientRect ads tagLoadTs)
            acc).numPreImplTagAdShifts
          ≤ (events.foldl (computeStep overlaps toClientRect ads tagLoadTs)
            acc).numAdShifts ∧
        (events.foldl (computeStep overlaps toClientRect ads tagLoadTs)
            acc).numAdShifts
          ≤ (events.foldl (computeStep overlaps toClientRect ads tagLoadTs)
            acc).numShifts := by
  intro events
  induction events with
  | nil => intro acc h1 h2; exact ⟨h1, h2⟩
  | cons e rest ih =>
    intro acc h1 h2
    obtain ⟨g1, g2⟩ :=
      computeStep_counts overlaps toClientRect ads tagLoadTs acc e h1 h2
    exact ih _ g1 g2

lemma foldl_computeStep_cums {Rect : Type} (overlaps : Rect → Rect → Bool)
    (toClientRect : List ℚ → Rect) (ads : List (IFrameElement Rect))
    (tagLoadTs : WithTop ℚ) :
    ∀ (events : List TraceEvent) (acc : ShiftDetails),
      (∀ e ∈ events, ∀ args data, e.args = some args →
        args.data = some data → data.is_main_frame = true →
        data.had_recent_input = false → 0 ≤ data.score) →
      acc.cumulativePreImplTagAdShift ≤ acc.cumulativeAdShift →
      acc.cumulativeAdShift ≤ acc.cumulativeShift →
      (events.foldl (computeStep overlaps toClientRect ads tagLoadTs)
            acc).cumulativePreImplTagAdShift
          ≤ (events.foldl (computeStep overlaps toClientRect ads tagLoadTs)
            acc).cumulativeAdShift ∧
        (events.foldl (computeStep overlaps toClientRect ads tagLoadTs)
            acc).cumulativeAdShift
          ≤ (events.foldl (computeStep overlaps toClientRect ads tagLoadTs)
            acc).cumulativeShift := by
  intro events
  induction events with
  | nil => intro acc _ h1 h2; exact ⟨h1, h2⟩
  | cons e rest ih =>
    intro acc hsc h1 h2
    obtain ⟨g1, g2⟩ := computeStep_cums overlaps toClientRect ads tagLoadTs
      acc e (hsc e (List.mem_cons_self e rest)) h1 h2
    exact ih _ (fun x hx => hsc x (List.mem_cons_of_mem e hx)) g1 g2

lemma computeStep_top_pre_eq {Rect : Type} (overlaps : Rect → Rect → Bool)
    (toClientRect : List ℚ → Rect) (ads : List (IFrameElement Rect))
    (acc : ShiftDetails) (e : TraceEvent)
    (h1 : acc.numPreImplTagAdShifts = acc.numAdShifts)
    (h2 : acc.cumulativePreImplTagAdShift = acc.cumulativeAdShift) :
    (computeStep overlaps toClientRect ads ⊤ acc e).numPreImplTagAdShifts
        = (computeStep overlaps toClientRect ads ⊤ acc e).numAdShifts ∧
      (computeStep overlaps toClientRect ads ⊤ acc
          e).cumulativePreImplTagAdShift
        = (computeStep overlaps toClientRect ads ⊤ acc
          e).cumulativeAdShift := by
  obtain ⟨nm, ts, args⟩ := e
  cases args with
  | none => exact ⟨h1, h2⟩
  | some a =>
    obtain ⟨d⟩ := a
    cases d with
    | none => exact ⟨h1, h2⟩
    | some data =>
      simp only [computeStep]
      split_ifs with hg hads htop
      · exact ⟨h1, h2⟩
      · simp_all
      · exact absurd (WithTop.coe_lt_top ts) htop
      · exact ⟨h1, h2⟩

lemma foldl_computeStep_top_pre_eq {Rect : Type}
    (overlaps : Rect → Rect → Bool) (toClientRect : List ℚ → Rect)
    (ads : List (IFrameElement Rect)) :
    ∀ (events : List TraceEvent) (acc : ShiftDetails),
      acc.numPreImplTagAdShifts = acc.numAdShifts →
      acc.cumulativePreImplTagAdShift = acc.cumulativeAdShift →
      (events.foldl (computeStep overlaps toClientRect ads ⊤)
            acc).numPreImplTagAdShifts
          = (events.foldl (computeStep overlaps toClientRect ads ⊤)
            acc).numAdShifts ∧
        (events.foldl (computeStep overlaps toClientRect ads ⊤)
            acc).cumulativePreImplTagAdShift
          = (events.foldl (computeStep overlaps toClientRect ads ⊤)
            acc).cumulativeAdShift := by
  intro events
  induction events with
  | nil => intro acc h1 h2; exact ⟨h1, h2⟩
  | cons e rest ih =>
    intro acc h1 h2
    obtain ⟨g1, g2⟩ :=
      computeStep_top_pre_eq overlaps toClientRect ads acc e h1 h2
    exact ih _ g1 g2

/-- C6: isAdShift returns true exactly when the event carries payload data
and the old rectangle of some impacted node overlaps the client rectangle
of some ad iframe; an event lacking args or args.data always yields
false. -/
theorem isAdShift_iff_overlap {Rect : Type} (overlaps : Rect → Rect → Bool)
    (toClientRect : List ℚ → Rect) (e : TraceEvent)
    (ads : List (IFrameElement Rect)) :
    isAdShift overlaps toClientRect e ads = true ↔
    ∃ args data, e.args = some args ∧ args.data = some data ∧
      ∃ ad ∈ ads, ∃ node ∈ data.impacted_nodes.getD [],
        overlaps (toClientRect (node.old_rect.getD [])) ad.clientRect
          = true := by
  obtain ⟨nm, ts, args⟩ := e
  cases args with
  | none => simp [isAdShift]
  | some a =>
    obtain ⟨d⟩ := a
    cases d with
    | none => simp [isAdShift]
    | some data => simp [isAdShift, List.any_eq_true]

/-- C7: with no LayoutShift trace events, or with no iframe classified as an
ad iframe, the cumulative-ad-shift audit returns the corresponding
not-applicable result rather than computing a score. -/
theorem cumulativeAdShift_not_applicable {Rect : Type}
    (overlaps : Rect → Rect → Bool) (toClientRect : List ℚ → Rect)
    (isAdIframe : IFrameElement Rect → Bool) (isImplTag : String → Bool)
    (getScriptUrl : TraceEvent → Option String) (curve : ℚ → ℚ)
    (traceEvents : List TraceEvent)
    (iframeElements : List (IFrameElement Rect))
    (h : traceEvents.filter (fun e => e.name == "LayoutShift") = [] ∨
      iframeElements.filter isAdIframe = []) :
    audit overlaps toClientRect isAdIframe isImplTag getScriptUrl curve
        traceEvents iframeElements
      = .notApplicable
        (if traceEvents.filter (fun e => e.name == "LayoutShift") = []
          then "NoLayoutShifts" else "NoAdRendered") := by
  by_cases hs : traceEvents.filter (fun e => e.name == "LayoutShift") = []
  · simp [audit, hs]
  · have hads : iframeElements.filter isAdIframe = [] := h.resolve_left hs
    simp [audit, hs, hads]

/-- C8: for every event list, ad list and tag-load timestamp, the counters
computed by CumulativeAdShift.compute satisfy the chain
numPreImplTagAdShifts at most numAdShifts at most numShifts, and only
events carrying main-frame payload data without recent input contribute
to any counter (filtering the events down to the qualifying ones leaves
the result unchanged); when additionally every counted event has a
non-negative score, the cumulative totals satisfy the same chain. -/
theorem cumulativeAdShift_compute_invariants {Rect : Type}
    (overlaps : Rect → Rect → Bool) (toClientRect : List ℚ → Rect)
    (shiftEvents : List TraceEvent) (ads : List (IFrameElement Rect))
    (tagLoadTs : WithTop ℚ) :
    (compute overlaps toClientRect shiftEvents ads
        tagLoadTs).numPreImplTagAdShifts
      ≤ (compute overlaps toClientRect shiftEvents ads
        tagLoadTs).numAdShifts ∧
    (compute overlaps toClientRect shiftEvents ads tagLoadTs).numAdShifts
      ≤ (compute overlaps toClientRect shiftEvents ads tagLoadTs).numShifts ∧
    compute overlaps toClientRect shiftEvents ads tagLoadTs
      = compute overlaps toClientRect (shiftEvents.filter qualifyingShift)
        ads tagLoadTs ∧
    ((∀ e ∈ shiftEvents, ∀ args data, e.args = some args →
        args.data = some data → data.is_main_frame = true →
        data.had_recent_input = false → 0 ≤ data.score) →
      (compute overlaps toClientRect shiftEvents ads
          tagLoadTs).cumulativePreImplTagAdShift
        ≤ (compute overlaps toClientRect shiftEvents ads
          tagLoadTs).cumulativeAdShift ∧
      (compute overlaps toClientRect shiftEvents ads
          tagLoadTs).cumulativeAdShift
        ≤ (compute overlaps toClientRect shiftEvents ads
          tagLoadTs).cumulativeShift) := by
  obtain ⟨c1, c2⟩ := foldl_computeStep_counts overlaps toClientRect ads
    tagLoadTs shiftEvents ⟨0, 0, 0, 0, 0, 0⟩ (le_refl 0) (le_refl 0)
  refine ⟨c1, c2,
    foldl_computeStep_filter overlaps toClientRect ads tagLoadTs
      shiftEvents ⟨0, 0, 0, 0, 0, 0⟩, ?_⟩
  intro hscore
  exact foldl_computeStep_cums overlaps toClientRect ads
    tagLoadTs shiftEvents ⟨0, 0, 0, 0, 0, 0⟩ hscore (le_refl 0) (le_refl 0)

/-- C9: when no trace event has a script url classified as an
implementation tag, the cumulative-ad-shift audit uses the Infinity
tag-load timestamp, so every ad shift also counts as a pre-tag-load
shift: the pre-tag counters equal the ad counters in the reported
details. -/
theorem cumulativeAdShift_no_tag_pre_counts {Rect : Type}
    (overlaps : Rect → Rect → Bool) (toClientRect : List ℚ → Rect)
    (isAdIframe : IFrameElement Rect → Bool) (isImplTag : String → Bool)
    (getScriptUrl : TraceEvent → Option String) (curve : ℚ → ℚ)
    (traceEvents : List TraceEvent)
    (iframeElements : List (IFrameElement Rect)) (n sc : ℚ)
    (details : ShiftDetails)
    (hfind : traceEvents.find?
      (fun e => isImplTag ((getScriptUrl e).getD "")) = none)
    (h : audit overlaps toClientRect isAdIframe isImplTag getScriptUrl curve
        traceEvents iframeElements = .product n sc details) :
    details.numPreImplTagAdShifts = details.numAdShifts ∧
      details.cumulativePreImplTagAdShift = details.cumulativeAdShift := by
  unfold audit at h
  rw [hfind] at h
  dsimp only at h
  split_ifs at h with h1 h2
  simp at h
  obtain ⟨-, -, hdet⟩ := h
  rw [← hdet]
  exact foldl_computeStep_top_pre_eq overlaps toClientRect
    (iframeElements.filter isAdIframe)
    (traceEvents.filter (fun e => e.name == "LayoutShift"))
    ⟨0, 0, 0, 0, 0, 0⟩ rfl rfl

/-- Witness geometry for the cumulative-ad-shift claims: the unit rectangle
type with an always-true overlap test. -/
def wOverlaps : Unit → Unit → Bool := fun _ _ => true

/-- Witness stand-in for the geometry conversion helper. -/
def wToCR : List ℚ → Unit := fun _ => ()

/-- Witness ad-iframe classifier accepting every iframe. -/
def wIsAd : IFrameElement Unit → Bool := fun _ => true

/-- Witness implementation-tag classifier accepting nothing. -/
def wIsImpl : String → Bool := fun _ => false

/-- Witness script-url extractor returning no url. -/
def wGetScriptUrl : TraceEvent → Option String := fun _ => none

/-- Witness score curve for the cumulative-ad-shift audit. -/
def wShiftCurve : ℚ → ℚ := fun _ => 0

/-- Witness layout-shift trace event without payload data. -/
def wShiftEvent : TraceEvent := ⟨"LayoutShift", 10, none⟩

/-- Witness ad iframe element. -/
def wAdEl : IFrameElement Unit := ⟨()⟩

theorem cumulativeAdShift_not_applicable_witness :
    audit wOverlaps wToCR wIsAd wIsImpl wGetScriptUrl wShiftCurve [] []
      = .notApplicable
        (if ([] : List TraceEvent).filter (fun e => e.name == "LayoutShift")
            = [] then "NoLayoutShifts" else "NoAdRendered") :=
  cumulativeAdShift_not_applicable wOverlaps wToCR wIsAd wIsImpl
    wGetScriptUrl wShiftCurve [] [] (Or.inl rfl)

theorem cumulativeAdShift_compute_invariants_witness :
    (compute wOverlaps wToCR [wShiftEvent] [wAdEl]
        ⊤).numPreImplTagAdShifts
      ≤ (compute wOverlaps wToCR [wShiftEvent] [wAdEl] ⊤).numAdShifts ∧
    (compute wOverlaps wToCR [wShiftEvent] [wAdEl]
        ⊤).cumulativePreImplTagAdShift
      ≤ (compute wOverlaps wToCR [wShiftEvent] [wAdEl]
        ⊤).cumulativeAdShift :=
  ⟨(cumulativeAdShift_compute_invariants wOverlaps wToCR [wShiftEvent]
      [wAdEl] ⊤).1,
    ((cumulativeAdShift_compute_invariants wOverlaps wToCR [wShiftEvent]
        [wAdEl] ⊤).2.2.2
      (by
        intro e he args data h1 h2 h3 h4
        simp only [List.mem_singleton] at he
        subst he
        simp [wShiftEvent] at h1)).1⟩

theorem cumulativeAdShift_no_tag_pre_counts_witness :
    (⟨0, 0, 0, 0, 0, 0⟩ : ShiftDetails).numPreImplTagAdShifts
        = (⟨0, 0, 0, 0, 0, 0⟩ : ShiftDetails).numAdShifts ∧
      (⟨0, 0, 0, 0, 0, 0⟩ : ShiftDetails).cumulativePreImplTagAdShift
        = (⟨0, 0, 0, 0, 0, 0⟩ : ShiftDetails).cumulativeAdShift :=
  cumulativeAdShift_no_tag_pre_counts wOverlaps wToCR wIsAd wIsImpl
    wGetScriptUrl wShiftCurve [wShiftEvent] [wAdEl] 0 0
    ⟨0, 0, 0, 0, 0, 0⟩ rfl rfl

end CumulativeAdShift

end AdSpeedInsights
